import Mathlib

/-!
Verification of the core pipeline of `expagent2.py` (drug-discovery agent
demo): candidate generation, descriptor-based acceptance filtering, toxicity
classification, mock affinity scoring, top-5 selection and CSV/JSON export.

Modelling conventions (shallow embedding):
* Python floats are modelled as rationals (`ℚ`); Python's `round(x, 2)` is
  modelled by `pyRound2` (round half to even, as Python does).
* External collaborators (RDKit parsing `Chem.MolFromSmiles`, the descriptor
  functions `Descriptors.MolLogP/MolWt/TPSA`, image rendering, `hash`, the
  PRNG) are abstract parameters: a parse oracle `String → Bool`, descriptor
  evaluators `String → ℚ`, a render oracle returning `Option` (`none` models
  the rendering call raising an exception), a hash function and an abstract
  PRNG state machine.
* `random.choice` calls inside `generate_valid_smiles` are modelled by an
  explicit finite list of index choices consumed one per loop iteration;
  the function returns `none` when the choice budget is exhausted before the
  `while len(results) < n` condition turns false (i.e. the Python loop is
  still running).
* Exceptions propagating out of the message handler are modelled with
  `Except Unit`; the filesystem is modelled as `String → Option FileData`.
-/

/-- Python `round(x, 2)`: round `x` to 2 decimal places, half to even. -/
def roundHalfEven (x : ℚ) : ℤ :=
  let f := ⌊x⌋
  let r := x - f
  if r < 1/2 then f
  else if 1/2 < r then f + 1
  else if 2 ∣ f then f else f + 1

/-- Python `round(x, 2)` on a rational. -/
def pyRound2 (x : ℚ) : ℚ := (roundHalfEven (x * 100) : ℚ) / 100

/-- The `MoleculeCandidate` message model of `expagent2.py` (field order as
declared in the Python class, which is the JSON serialisation order). -/
structure MoleculeCandidate where
  smiles : String
  logp : ℚ
  mw : ℚ
  tpsa : ℚ
  affinity_score : ℚ
  image_path : String
  toxicity : String
  round_id : Nat
deriving DecidableEq, Repr

/-- Config constant `ROUNDS = 2`. -/
def ROUNDS : Nat := 2

/-- Config constant `CANDIDATES_PER_ROUND = 10`. -/
def CANDIDATES_PER_ROUND : Nat := 10

/-- The seed vocabulary `base` of `generate_valid_smiles`. -/
def base : List String :=
  ["CCO", "CCC", "CN", "CCN", "CNC", "COC", "CCl", "CCBr",
   "c1ccccc1", "c1ccncc1", "c1ccc(cc1)N"]

/-- The mutation alphabet of `generate_valid_smiles`
(`random.choice(["", "C", "O", "N", "Cl", "Br"])`). -/
def suffixes : List String := ["", "C", "O", "N", "Cl", "Br"]

/-- One mutated string: `parent + suffix` where both random choices are
given by a pair of indices (taken modulo the list lengths, so every choice
pair denotes a legal `random.choice` outcome). -/
def mutate (c : Nat × Nat) : String :=
  base.getD (c.1 % base.length) "" ++ suffixes.getD (c.2 % suffixes.length) ""

/-- The `while len(results) < n` loop body of `generate_valid_smiles`:
`parses` is the `Chem.MolFromSmiles` truthiness oracle, `choices` the stream
of random draws (one pair per iteration), `acc` the accumulated `results`
set (kept as an insertion-ordered duplicate-free list).  Returns `none` when
the choice stream is exhausted while the loop condition still holds — i.e.
the Python loop is still running at that point. -/
def genLoop (parses : String → Bool) (n : Nat) :
    List (Nat × Nat) → List String → Option (List String)
  | choices, acc =>
    if n ≤ acc.length then some acc
    else
      match choices with
      | [] => none
      | c :: rest =>
        let mutated := mutate c
        let acc' := if parses mutated && !(acc.contains mutated)
                    then acc ++ [mutated] else acc
        genLoop parses n rest acc'

/-- Function `generate_valid_smiles(n)` under a parse oracle and a finite
stream of random choices. -/
def generate_valid_smiles (parses : String → Bool) (n : Nat)
    (choices : List (Nat × Nat)) : Option (List String) :=
  genLoop parses n choices []

/-- Descriptor triple returned by `calculate_descriptors`. -/
structure Descriptors where
  logp : ℚ
  mw : ℚ
  tpsa : ℚ
deriving DecidableEq, Repr

/-- Function `calculate_descriptors(smiles)`: the RDKit property functions are the
abstract evaluators `evalLogP`, `evalMW`, `evalTPSA`; each result is rounded
to two decimals exactly as in the source. -/
def calculate_descriptors (evalLogP evalMW evalTPSA : String → ℚ)
    (smiles : String) : Descriptors :=
  { logp := pyRound2 (evalLogP smiles)
  , mw := pyRound2 (evalMW smiles)
  , tpsa := pyRound2 (evalTPSA smiles) }

/-- Function `classify_toxicity(logp, mw, tpsa)` — literal translation. -/
def classify_toxicity (logp mw tpsa : ℚ) : String :=
  if tpsa > 140 then "High TPSA"
  else if logp > 5 ∨ mw > 500 then "High logP/MW"
  else "Low Risk"

/-- Function `mock_affinity(smiles, protein_seq)`.  `hashFn` models Python's
process-wide string `hash`, `seedFn` models `random.seed`, `uniform` models
`random.uniform(10, 100)` as a transition of the abstract PRNG state `σ`.
The function is a state transformer on the global PRNG state, exactly as in
the source: it reseeds from the pair, draws once, and rounds. -/
def mock_affinity {σ : Type} (hashFn : String → ℤ) (seedFn : ℤ → σ)
    (uniform : σ → ℚ × σ) (smiles protein_seq : String) (_st : σ) : ℚ × σ :=
  let seed := (hashFn (smiles ++ protein_seq)).emod 1000000
  let st1 := seedFn seed
  let (v, st2) := uniform st1
  (pyRound2 v, st2)

/-- The per-candidate body of the round loop in `handle_discovery`
(lines building `all_candidates` for one round): compute descriptors, apply
the acceptance filter `logp < 3 and mw < 500`, and for accepted candidates
compute affinity, toxicity and the rendered image, then append.  `render`
returns `none` when `draw_image` raises; the exception propagates out of the
handler, which `Except.error ()` models. -/
def processRound (descr : String → Descriptors) (affin : String → ℚ)
    (render : String → Option String) (round_id : Nat) :
    List String → Except Unit (List MoleculeCandidate)
  | [] => .ok []
  | smiles :: rest =>
    if (descr smiles).logp < 3 ∧ (descr smiles).mw < 500 then
      match render smiles with
      | none => .error ()
      | some img =>
        match processRound descr affin render round_id rest with
        | .error e => .error e
        | .ok cs =>
          .ok ({ smiles := smiles
               , logp := (descr smiles).logp
               , mw := (descr smiles).mw
               , tpsa := (descr smiles).tpsa
               , affinity_score := affin smiles
               , image_path := img
               , toxicity := classify_toxicity (descr smiles).logp
                   (descr smiles).mw (descr smiles).tpsa
               , round_id := round_id } :: cs)
    else processRound descr affin render round_id rest

/-- The `for round_id in range(1, ROUNDS + 1)` loop of `handle_discovery`,
processing rounds `r, r+1, …, rounds` in order and concatenating their
accepted candidates.  `gen r` is the list returned by
`generate_valid_smiles(CANDIDATES_PER_ROUND)` in round `r`; `render r` the
renderer for round `r` (the image name embeds the round id). -/
def roundsGo (gen : Nat → List String) (descr : String → Descriptors)
    (affin : String → ℚ) (render : Nat → String → Option String) :
    List Nat → Except Unit (List MoleculeCandidate)
  | [] => .ok []
  | r :: rest =>
    match processRound descr affin (render r) r (gen r) with
    | .error e => .error e
    | .ok cs =>
      match roundsGo gen descr affin render rest with
      | .error e => .error e
      | .ok restCs => .ok (cs ++ restCs)

/-- The accumulation phase of `handle_discovery`: rounds `1, …, rounds` in
order (`range(1, ROUNDS + 1)` is `List.range' 1 rounds`). -/
def handle_discovery_core (gen : Nat → List String)
    (descr : String → Descriptors) (affin : String → ℚ)
    (render : Nat → String → Option String) (rounds : Nat) :
    Except Unit (List MoleculeCandidate) :=
  roundsGo gen descr affin render (List.range' 1 rounds)

/-- The sort key comparison used by
`sorted(all_candidates, key=lambda x: x.affinity_score)`. -/
def affLE (a b : MoleculeCandidate) : Bool :=
  decide (a.affinity_score ≤ b.affinity_score)

/-- Selection `top_candidates = sorted(all_candidates, key=lambda x: x.affinity_score)[:5]`.
Python's `sorted` is a stable ascending sort; `List.mergeSort` is Lean's
stable ascending sort. -/
def top_candidates (all_candidates : List MoleculeCandidate) :
    List MoleculeCandidate :=
  (all_candidates.mergeSort affLE).take 5

/-- A cell value as written to the artifacts (a Python string, float or int
field of a `MoleculeCandidate`). -/
inductive Cell where
  | str (s : String)
  | num (q : ℚ)
  | nat (n : Nat)
deriving DecidableEq, Repr

/-- The CSV header row written by `export_results`. -/
def csvHeader : List Cell :=
  [.str "SMILES", .str "logP", .str "MW", .str "TPSA", .str "Affinity",
   .str "Toxicity", .str "Round", .str "Image"]

/-- One CSV data row, in the column order of `writer.writerow([c.smiles,
c.logp, c.mw, c.tpsa, c.affinity_score, c.toxicity, c.round_id,
c.image_path])`. -/
def csvRow (c : MoleculeCandidate) : List Cell :=
  [.str c.smiles, .num c.logp, .num c.mw, .num c.tpsa, .num c.affinity_score,
   .str c.toxicity, .nat c.round_id, .str c.image_path]

/-- The full CSV artifact: header row then one row per candidate, in list
order. -/
def csvRows (candidates : List MoleculeCandidate) : List (List Cell) :=
  csvHeader :: candidates.map csvRow

/-- One JSON object `c.dict()`: key/value pairs in the declaration order of
the `MoleculeCandidate` model. -/
def jsonObj (c : MoleculeCandidate) : List (String × Cell) :=
  [("smiles", .str c.smiles), ("logp", .num c.logp), ("mw", .num c.mw),
   ("tpsa", .num c.tpsa), ("affinity_score", .num c.affinity_score),
   ("image_path", .str c.image_path), ("toxicity", .str c.toxicity),
   ("round_id", .nat c.round_id)]

/-- The JSON artifact `[c.dict() for c in candidates]`. -/
def jsonArr (candidates : List MoleculeCandidate) :
    List (List (String × Cell)) :=
  candidates.map jsonObj

/-- Function `export_results(candidates)` viewed as the pair of artifacts it writes:
the CSV file content and the JSON file content, both computed from the same
list in the same order (the source writes the CSV, then the JSON). -/
def export_results (candidates : List MoleculeCandidate) :
    List (List Cell) × List (List (String × Cell)) :=
  (csvRows candidates, jsonArr candidates)

/-- Reorder a parsed-back JSON object into the CSV column order, looking
each key up by name (default cell for a missing key). -/
def jsonToRow (o : List (String × Cell)) : List Cell :=
  [(o.lookup "smiles").getD (.str ""), (o.lookup "logp").getD (.str ""),
   (o.lookup "mw").getD (.str ""), (o.lookup "tpsa").getD (.str ""),
   (o.lookup "affinity_score").getD (.str ""),
   (o.lookup "toxicity").getD (.str ""), (o.lookup "round_id").getD (.str ""),
   (o.lookup "image_path").getD (.str "")]

/-- Content of one exported file. -/
inductive FileData where
  | csvFile (rows : List (List Cell))
  | jsonFile (arr : List (List (String × Cell)))
deriving DecidableEq

/-- The filesystem, as a map from paths to file contents. -/
def FS : Type := String → Option FileData

/-- Opening a path in `"w"` mode and writing `d` replaces whatever was at
that path. -/
def writeFile (fs : FS) (path : String) (d : FileData) : FS :=
  fun q => if q = path then some d else fs q

/-- Global `job_id = datetime.datetime.now().strftime("job_%Y%m%d_%H%M%S")`:
computed once at process start from the start timestamp `ts`. -/
def job_id (ts : String) : String := "job_" ++ ts

/-- Global `results_path = os.path.join(RESULTS_BASE, job_id)`. -/
def results_path (ts : String) : String := "results/" ++ job_id ts

/-- Path `os.path.join(results_path, "top_candidates.csv")`. -/
def csv_path (ts : String) : String := results_path ts ++ "/top_candidates.csv"

/-- Path `os.path.join(results_path, "top_candidates.json")`. -/
def json_path (ts : String) : String :=
  results_path ts ++ "/top_candidates.json"

/-- Function `export_results` as a filesystem update: it writes the CSV artifact and
then the JSON artifact, both under the process-wide job directory fixed by
the start timestamp `ts`. -/
def export_results_fs (ts : String) (candidates : List MoleculeCandidate)
    (fs : FS) : FS :=
  writeFile (writeFile fs (csv_path ts) (.csvFile (csvRows candidates)))
    (json_path ts) (.jsonFile (jsonArr candidates))

/-! ## Helper lemmas about the round loop -/

/-- Soundness of one round: every candidate of a successful round result
comes from an input SMILES that passed the acceptance filter, and carries
that SMILES' descriptors, its toxicity class and the round id. -/
lemma processRound_ok_mem {descr : String → Descriptors} {affin : String → ℚ}
    {render : String → Option String} {rid : Nat} :
    ∀ {list : List String} {l : List MoleculeCandidate},
      processRound descr affin render rid list = .ok l →
      ∀ c ∈ l, c.smiles ∈ list ∧ (descr c.smiles).logp < 3 ∧
        (descr c.smiles).mw < 500 ∧
        c.toxicity = classify_toxicity (descr c.smiles).logp
          (descr c.smiles).mw (descr c.smiles).tpsa ∧
        c.round_id = rid := by
  intro list
  induction list with
  | nil =>
    intro l h c hc
    simp only [processRound, Except.ok.injEq] at h
    subst h
    simp at hc
  | cons s rest ih =>
    intro l h c hc
    simp only [processRound] at h
    by_cases hacc : (descr s).logp < 3 ∧ (descr s).mw < 500
    · rw [if_pos hacc] at h
      cases hrender : render s with
      | none => rw [hrender] at h; exact absurd h (by simp)
      | some img =>
        rw [hrender] at h
        cases hrec : processRound descr affin render rid rest with
        | error e => rw [hrec] at h; exact absurd h (by simp)
        | ok cs =>
          rw [hrec] at h
          simp only [Except.ok.injEq] at h
          subst h
          rcases List.mem_cons.mp hc with hc | hc
          · subst hc
            refine ⟨by simp, hacc.1, hacc.2, rfl, rfl⟩
          · obtain ⟨h1, h2, h3, h4, h5⟩ := ih hrec c hc
            exact ⟨List.mem_cons_of_mem _ h1, h2, h3, h4, h5⟩
    · rw [if_neg hacc] at h
      obtain ⟨h1, h2, h3, h4, h5⟩ := ih h c hc
      exact ⟨List.mem_cons_of_mem _ h1, h2, h3, h4, h5⟩

/-- Completeness of one round: every input SMILES that passes the
acceptance filter appears among the candidates of a successful round
result. -/
lemma processRound_ok_complete {descr : String → Descriptors}
    {affin : String → ℚ} {render : String → Option String} {rid : Nat} :
    ∀ {list : List String} {l : List MoleculeCandidate},
      processRound descr affin render rid list = .ok l →
      ∀ s ∈ list, (descr s).logp < 3 → (descr s).mw < 500 →
        ∃ c ∈ l, c.smiles = s := by
  intro list
  induction list with
  | nil =>
    intro l _ s hs
    simp at hs
  | cons t rest ih =>
    intro l h s hs hlogp hmw
    simp only [processRound] at h
    by_cases hacc : (descr t).logp < 3 ∧ (descr t).mw < 500
    · rw [if_pos hacc] at h
      cases hrender : render t with
      | none => rw [hrender] at h; exact absurd h (by simp)
      | some img =>
        rw [hrender] at h
        cases hrec : processRound descr affin render rid rest with
        | error e => rw [hrec] at h; exact absurd h (by simp)
        | ok cs =>
          rw [hrec] at h
          simp only [Except.ok.injEq] at h
          subst h
          rcases List.mem_cons.mp hs with hs | hs
          · subst hs
            exact ⟨_, List.mem_cons_self _ _, rfl⟩
          · obtain ⟨c, hcl, hcs⟩ := ih hrec s hs hlogp hmw
            exact ⟨c, List.mem_cons_of_mem _ hcl, hcs⟩
    · rw [if_neg hacc] at h
      rcases List.mem_cons.mp hs with hs | hs
      · subst hs
        exact absurd ⟨hlogp, hmw⟩ hacc
      · exact ih h s hs hlogp hmw

/-! ## Claim theorems -/

/-- C1: for every generated SMILES of a round, a candidate with that SMILES
appears in the round's accumulated candidate list iff its logp descriptor is
strictly below 3 and its mw descriptor is strictly below 500; in particular
a SMILES whose logp is exactly 3 or whose mw is exactly 500 is rejected. -/
theorem C1_acceptance_filter (descr : String → Descriptors)
    (affin : String → ℚ) (render : String → Option String) (rid : Nat)
    (list : List String) (l : List MoleculeCandidate)
    (hok : processRound descr affin render rid list = .ok l)
    (s : String) (hs : s ∈ list) :
    ((∃ c ∈ l, c.smiles = s) ↔
      ((descr s).logp < 3 ∧ (descr s).mw < 500)) ∧
    (((descr s).logp = 3 ∨ (descr s).mw = 500) →
      ¬ ∃ c ∈ l, c.smiles = s) := by
  have hiff : (∃ c ∈ l, c.smiles = s) ↔
      ((descr s).logp < 3 ∧ (descr s).mw < 500) := by
    constructor
    · rintro ⟨c, hcl, rfl⟩
      obtain ⟨-, h2, h3, -, -⟩ := processRound_ok_mem hok c hcl
      exact ⟨h2, h3⟩
    · rintro ⟨h2, h3⟩
      exact processRound_ok_complete hok s hs h2 h3
  refine ⟨hiff, ?_⟩
  rintro (hb | hb) hex
  · rcases hiff.mp hex with ⟨hlt, -⟩
    rw [hb] at hlt
    exact lt_irrefl _ hlt
  · rcases hiff.mp hex with ⟨-, hlt⟩
    rw [hb] at hlt
    exact lt_irrefl _ hlt

/-- Witness for C1 at a concrete round: input SMILES `"CCO"` has
descriptors `(1, 100, 50)` (accepted), `"CCC"` has `(3, 500, 50)` (both
boundary values, rejected). -/
theorem C1_acceptance_filter_witness :
    ((∃ c ∈ [({ smiles := "CCO", logp := 1, mw := 100, tpsa := 50,
                affinity_score := 42, image_path := "img.png",
                toxicity := "Low Risk", round_id := 1 } :
                MoleculeCandidate)], c.smiles = "CCC") ↔
      ((3 : ℚ) < 3 ∧ (500 : ℚ) < 500)) ∧
    (((3 : ℚ) = 3 ∨ (500 : ℚ) = 500) →
      ¬ ∃ c ∈ [({ smiles := "CCO", logp := 1, mw := 100, tpsa := 50,
                  affinity_score := 42, image_path := "img.png",
                  toxicity := "Low Risk", round_id := 1 } :
                  MoleculeCandidate)], c.smiles = "CCC") :=
  C1_acceptance_filter
    (fun s => if s = "CCO" then ⟨1, 100, 50⟩ else ⟨3, 500, 50⟩)
    (fun _ => 42) (fun _ => some "img.png") 1 ["CCO", "CCC"] _
    rfl "CCC" (by decide)

/-- C2: toxicity classification is a pure function of the three
descriptors, checked in priority order — `tpsa > 140` first, then
`logp > 5 ∨ mw > 500`, else low risk ("High TPSA" is the source's name for
the spec's `HighPolarity`, "High logP/MW" for `HighMassOrLipophilicity`,
"Low Risk" for `LowRisk`).  The polarity check dominates: `(1, 100, 150)`
classifies as "High TPSA". -/
theorem C2_toxicity_priority (logp mw tpsa : ℚ) :
    (tpsa > 140 → classify_toxicity logp mw tpsa = "High TPSA") ∧
    (¬ tpsa > 140 → (logp > 5 ∨ mw > 500) →
      classify_toxicity logp mw tpsa = "High logP/MW") ∧
    (¬ tpsa > 140 → ¬ (logp > 5 ∨ mw > 500) →
      classify_toxicity logp mw tpsa = "Low Risk") ∧
    classify_toxicity 1 100 150 = "High TPSA" := by
  refine ⟨?_, ?_, ?_, by norm_num [classify_toxicity]⟩ <;>
    intros <;> simp [classify_toxicity, *]

/-- Witness for C2 on the spec's three test vectors. -/
theorem C2_toxicity_priority_witness :
    classify_toxicity 1 100 150 = "High TPSA" ∧
    classify_toxicity 6 100 50 = "High logP/MW" ∧
    classify_toxicity 1 100 50 = "Low Risk" :=
  ⟨(C2_toxicity_priority 1 100 150).1 (by norm_num),
   (C2_toxicity_priority 6 100 50).2.1 (by norm_num) (by norm_num),
   (C2_toxicity_priority 1 100 50).2.2.1 (by norm_num) (by norm_num)⟩

/-- C7: `mock_affinity` reseeds the process-wide PRNG from
`hash(smiles + protein_seq)` before drawing, so within one process run
(fixed `hashFn`) the returned affinity score does not depend on the
incoming PRNG state: two calls on the same pair return the same score. -/
theorem C7_affinity_deterministic {σ : Type} (hashFn : String → ℤ)
    (seedFn : ℤ → σ) (uniform : σ → ℚ × σ) (smiles protein_seq : String)
    (st st' : σ) :
    (mock_affinity hashFn seedFn uniform smiles protein_seq st).1 =
      (mock_affinity hashFn seedFn uniform smiles protein_seq st').1 := rfl

/-- The comparison `affLE` is transitive. -/
lemma affLE_trans (a b c : MoleculeCandidate) :
    affLE a b → affLE b c → affLE a c := by
  simp only [affLE, decide_eq_true_eq]
  exact le_trans

/-- The comparison `affLE` is total. -/
lemma affLE_total (a b : MoleculeCandidate) : affLE a b || affLE b a := by
  simp only [affLE, Bool.or_eq_true, decide_eq_true_eq]
  exact le_total _ _

/-- C3: the exported top set is the first `min 5 N` elements of the
accumulated list stably sorted ascending by `affinity_score`: it has length
`min 5 N`, its affinity scores are non-decreasing, and it is the 5-element
prefix of a sorted permutation of the accumulation that keeps every
already-sorted sublist of the input as a sublist (stability: ties keep
their original accumulation order). -/
theorem C3_top_selection (l : List MoleculeCandidate) :
    (top_candidates l).length = min 5 l.length ∧
    (top_candidates l).Pairwise
      (fun a b => a.affinity_score ≤ b.affinity_score) ∧
    ∃ sortedAll : List MoleculeCandidate,
      top_candidates l = sortedAll.take 5 ∧ sortedAll.Perm l ∧
      sortedAll.Pairwise (fun a b => a.affinity_score ≤ b.affinity_score) ∧
      ∀ c : List MoleculeCandidate, c.Sublist l →
        c.Pairwise (fun a b => a.affinity_score ≤ b.affinity_score) →
        c.Sublist sortedAll := by
  have hsorted : (l.mergeSort affLE).Pairwise
      (fun a b => a.affinity_score ≤ b.affinity_score) := by
    refine (List.sorted_mergeSort affLE_trans affLE_total l).imp ?_
    intro a b h
    exact decide_eq_true_eq.mp h
  refine ⟨?_, ?_, l.mergeSort affLE, rfl, List.mergeSort_perm l affLE,
    hsorted, ?_⟩
  · simp [top_candidates, List.length_take, List.length_mergeSort]
  · exact hsorted.sublist (List.take_sublist 5 _)
  · intro c hsub hpw
    refine List.sublist_mergeSort affLE_trans affLE_total ?_ hsub
    refine hpw.imp ?_
    intro a b h
    exact decide_eq_true_eq.mpr h

/-- C4: `export_results` always produces both artifacts together from the
same candidate list: the CSV artifact is the header followed by one row per
candidate in list order, the JSON artifact is one object per candidate in
the same order, and reordering each parsed-back JSON object into the CSV
column order reproduces the CSV data rows exactly (same candidates, same
field values, same rank order). -/
theorem C4_export_consistency (candidates : List MoleculeCandidate) :
    (export_results candidates).1 = csvHeader :: candidates.map csvRow ∧
    (export_results candidates).2 = candidates.map jsonObj ∧
    (export_results candidates).1.tail =
      ((export_results candidates).2).map jsonToRow := by
  refine ⟨rfl, rfl, ?_⟩
  simp only [export_results, csvRows, jsonArr, List.tail_cons, List.map_map]
  congr 1

/-- The two artifact paths differ (their lengths differ). -/
lemma csv_path_ne_json_path (ts : String) : csv_path ts ≠ json_path ts := by
  intro h
  have hl := congrArg String.length h
  have h19 : ("/top_candidates.csv" : String).length = 19 := rfl
  have h20 : ("/top_candidates.json" : String).length = 20 := rfl
  rw [csv_path, json_path, String.length_append, String.length_append,
    h19, h20] at hl
  omega

/-- C10: the job directory is fixed by the process-start timestamp, so a
second `export_results` call in the same run writes to the same two paths,
overwriting the first call's artifacts — afterwards the artifacts hold the
second call's candidates, and every other path is untouched. -/
theorem C10_fixed_job_dir_overwrite (ts : String) (fs : FS)
    (cs1 cs2 : List MoleculeCandidate) :
    export_results_fs ts cs2 (export_results_fs ts cs1 fs) (csv_path ts) =
      some (.csvFile (csvRows cs2)) ∧
    export_results_fs ts cs2 (export_results_fs ts cs1 fs) (json_path ts) =
      some (.jsonFile (jsonArr cs2)) ∧
    ∀ p : String, p ≠ csv_path ts → p ≠ json_path ts →
      export_results_fs ts cs2 (export_results_fs ts cs1 fs) p = fs p := by
  refine ⟨?_, ?_, ?_⟩
  · simp [export_results_fs, writeFile, csv_path_ne_json_path ts]
  · simp [export_results_fs, writeFile]
  · intro p h1 h2
    simp [export_results_fs, writeFile, h1, h2]

/-- Witness for C10: after two exports in the job of timestamp
`"20250101_000000"`, an unrelated path still reads as in the initial
(empty) filesystem. -/
theorem C10_fixed_job_dir_overwrite_witness :
    export_results_fs "20250101_000000" []
        (export_results_fs "20250101_000000" [] (fun _ => none))
        "results/other_file.txt" =
      (fun _ => (none : Option FileData)) "results/other_file.txt" :=
  (C10_fixed_job_dir_overwrite "20250101_000000" (fun _ => none) [] []).2.2
    "results/other_file.txt" (by decide) (by decide)

/-- Candidates of a successful round are never classified "High logP/MW":
the acceptance filter already bounds logp below 3 and mw below 500. -/
lemma processRound_ok_toxicity {descr : String → Descriptors}
    {affin : String → ℚ} {render : String → Option String} {rid : Nat}
    {list : List String} {l : List MoleculeCandidate}
    (h : processRound descr affin render rid list = .ok l) :
    ∀ c ∈ l, c.toxicity = "High TPSA" ∨ c.toxicity = "Low Risk" := by
  intro c hc
  obtain ⟨-, h2, h3, h4, -⟩ := processRound_ok_mem h c hc
  rw [h4]
  unfold classify_toxicity
  by_cases ht : (descr c.smiles).tpsa > 140
  · left
    rw [if_pos ht]
  · right
    rw [if_neg ht, if_neg]
    rintro (h5 | h5) <;> linarith

/-- Lift of `processRound_ok_toxicity` through the round loop. -/
lemma roundsGo_ok_toxicity (gen : Nat → List String)
    (descr : String → Descriptors) (affin : String → ℚ)
    (render : Nat → String → Option String) :
    ∀ (rids : List Nat) (l : List MoleculeCandidate),
      roundsGo gen descr affin render rids = .ok l →
      ∀ c ∈ l, c.toxicity = "High TPSA" ∨ c.toxicity = "Low Risk" := by
  intro rids
  induction rids with
  | nil =>
    intro l h c hc
    simp only [roundsGo, Except.ok.injEq] at h
    subst h
    simp at hc
  | cons r rest ih =>
    intro l h c hc
    simp only [roundsGo] at h
    cases hpr : processRound descr affin (render r) r (gen r) with
    | error e => rw [hpr] at h; exact absurd h (by simp)
    | ok cs =>
      rw [hpr] at h
      cases hrec : roundsGo gen descr affin render rest with
      | error e => rw [hrec] at h; exact absurd h (by simp)
      | ok restCs =>
        rw [hrec] at h
        simp only [Except.ok.injEq] at h
        subst h
        rcases List.mem_append.mp hc with hc | hc
        · exact processRound_ok_toxicity hpr c hc
        · exact ih restCs hrec c hc

/-- C9: every candidate that reaches the accumulation passed the acceptance
filter (logp < 3, mw < 500), so its class is "High TPSA" or "Low Risk" and
never "High logP/MW"; the same holds for the exported top set. -/
theorem C9_accepted_never_high_logp_mw (gen : Nat → List String)
    (descr : String → Descriptors) (affin : String → ℚ)
    (render : Nat → String → Option String) (rounds : Nat)
    (l : List MoleculeCandidate)
    (hok : handle_discovery_core gen descr affin render rounds = .ok l) :
    (∀ c ∈ l, c.toxicity ≠ "High logP/MW" ∧
      (c.toxicity = "High TPSA" ∨ c.toxicity = "Low Risk")) ∧
    ∀ c ∈ top_candidates l, c.toxicity ≠ "High logP/MW" := by
  have hl := roundsGo_ok_toxicity gen descr affin render _ l hok
  constructor
  · intro c hc
    refine ⟨?_, hl c hc⟩
    rcases hl c hc with h | h <;> rw [h] <;> decide
  · intro c hc
    simp only [top_candidates] at hc
    have hcl : c ∈ l :=
      List.mem_mergeSort.mp (List.mem_of_mem_take hc)
    rcases hl c hcl with h | h <;> rw [h] <;> decide

/-- Witness for C9: a one-round run with a single accepted candidate whose
class is "Low Risk". -/
theorem C9_accepted_never_high_logp_mw_witness :
    (∀ c ∈ [({ smiles := "CCO", logp := 1, mw := 100, tpsa := 50,
               affinity_score := 42, image_path := "img.png",
               toxicity := "Low Risk", round_id := 1 } :
               MoleculeCandidate)],
      c.toxicity ≠ "High logP/MW" ∧
        (c.toxicity = "High TPSA" ∨ c.toxicity = "Low Risk")) ∧
    ∀ c ∈ top_candidates
        [({ smiles := "CCO", logp := 1, mw := 100, tpsa := 50,
            affinity_score := 42, image_path := "img.png",
            toxicity := "Low Risk", round_id := 1 } : MoleculeCandidate)],
      c.toxicity ≠ "High logP/MW" :=
  C9_accepted_never_high_logp_mw (fun _ => ["CCO"])
    (fun _ => ⟨1, 100, 50⟩) (fun _ => 42) (fun _ _ => some "img.png") 1 _ rfl

/-- If rendering raises for any accepted SMILES of the round, the whole
round's processing propagates the exception. -/
lemma processRound_error_of_render {descr : String → Descriptors}
    {affin : String → ℚ} {render : String → Option String} {rid : Nat} :
    ∀ {list : List String} {s : String}, s ∈ list →
      (descr s).logp < 3 → (descr s).mw < 500 → render s = none →
      processRound descr affin render rid list = .error () := by
  intro list
  induction list with
  | nil =>
    intro s hs
    simp at hs
  | cons t rest ih =>
    intro s hs hlogp hmw hfail
    simp only [processRound]
    rcases List.mem_cons.mp hs with hs | hs
    · subst hs
      rw [if_pos ⟨hlogp, hmw⟩, hfail]
    · by_cases hacc : (descr t).logp < 3 ∧ (descr t).mw < 500
      · rw [if_pos hacc]
        cases hrender : render t with
        | none => rfl
        | some img => rw [ih hs hlogp hmw hfail]
      · rw [if_neg hacc]
        exact ih hs hlogp hmw hfail

/-- An exception in any round's processing propagates out of the whole
round loop. -/
lemma roundsGo_error (gen : Nat → List String) (descr : String → Descriptors)
    (affin : String → ℚ) (render : Nat → String → Option String) :
    ∀ (rids : List Nat) (r : Nat), r ∈ rids →
      processRound descr affin (render r) r (gen r) = .error () →
      roundsGo gen descr affin render rids = .error () := by
  intro rids
  induction rids with
  | nil =>
    intro r hr
    simp at hr
  | cons t rest ih =>
    intro r hr hfail
    simp only [roundsGo]
    rcases List.mem_cons.mp hr with hr | hr
    · subst hr
      rw [hfail]
    · cases hpr : processRound descr affin (render t) t (gen t) with
      | error e => rfl
      | ok cs => rw [ih r hr hfail]

/-- C6 (amended): when `draw_image` raises for an accepted candidate of
round `r`, the exception propagates out of the handler: the whole
accumulation phase returns the error, so neither the remaining candidates
of that round nor any other round's candidates survive, and nothing is
exported.  (The source has no try/except around `draw_image`.) -/
theorem C6_render_failure_aborts_run (gen : Nat → List String)
    (descr : String → Descriptors) (affin : String → ℚ)
    (render : Nat → String → Option String) (rounds r : Nat) (s : String)
    (hr : r ∈ List.range' 1 rounds) (hs : s ∈ gen r)
    (hlogp : (descr s).logp < 3) (hmw : (descr s).mw < 500)
    (hfail : render r s = none) :
    handle_discovery_core gen descr affin render rounds = .error () :=
  roundsGo_error gen descr affin render _ r hr
    (processRound_error_of_render hs hlogp hmw hfail)

/-- Witness for C6: a one-round run whose only candidate is accepted but
fails to render; the handler errors out. -/
theorem C6_render_failure_aborts_run_witness :
    handle_discovery_core (fun _ => ["CN"]) (fun _ => ⟨1, 100, 50⟩)
      (fun _ => 42) (fun _ _ => none) 1 = .error () :=
  C6_render_failure_aborts_run (fun _ => ["CN"]) (fun _ => ⟨1, 100, 50⟩)
    (fun _ => 42) (fun _ _ => none) 1 1 "CN" (by decide) (by decide)
    (by norm_num) (by norm_num) rfl

/-- Counterexample to C6 as stated: in a round generating the accepted
candidates `"CCO"` (render fails) and `"CCC"` (render succeeds), the claim
says `"CCC"` is still processed and the run completes; in fact the
exception aborts the handler, the accumulation is lost, and no candidate
list — in particular none containing `"CCC"` — is produced. -/
theorem C6_render_failure_counterexample :
    handle_discovery_core (fun _ => ["CCO", "CCC"]) (fun _ => ⟨1, 100, 50⟩)
      (fun _ => 42) (fun _ s => if s = "CCO" then none else some "img.png") 1
      = .error () ∧
    ¬ ∃ l : List MoleculeCandidate,
        handle_discovery_core (fun _ => ["CCO", "CCC"])
          (fun _ => ⟨1, 100, 50⟩) (fun _ => 42)
          (fun _ s => if s = "CCO" then none else some "img.png") 1
        = .ok l ∧ ∃ c ∈ l, c.smiles = "CCC" := by
  refine ⟨rfl, ?_⟩
  rintro ⟨l, hl, -⟩
  rw [show handle_discovery_core (fun _ => ["CCO", "CCC"])
      (fun _ => ⟨1, 100, 50⟩) (fun _ => 42)
      (fun _ s => if s = "CCO" then none else some "img.png") 1
      = .error () from rfl] at hl
  exact absurd hl (by simp)

/-! ## Generator lemmas -/

/-- Loop invariant of `generate_valid_smiles`: starting from a
duplicate-free accumulator of parseable strings not yet at the target size,
a successful exit returns exactly `n` distinct strings, all accepted by the
parse oracle. -/
lemma genLoop_ok_invariant (parses : String → Bool) (n : Nat) :
    ∀ (choices : List (Nat × Nat)) (acc l : List String),
      acc.Nodup → (∀ s ∈ acc, parses s = true) → acc.length ≤ n →
      genLoop parses n choices acc = some l →
      l.length = n ∧ l.Nodup ∧ ∀ s ∈ l, parses s = true := by
  intro choices
  induction choices with
  | nil =>
    intro acc l hnd hp hle h
    simp only [genLoop] at h
    by_cases hcond : n ≤ acc.length
    · rw [if_pos hcond] at h
      injection h with h
      subst h
      exact ⟨Nat.le_antisymm hle hcond, hnd, hp⟩
    · rw [if_neg hcond] at h
      exact absurd h (by simp)
  | cons c rest ih =>
    intro acc l hnd hp hle h
    simp only [genLoop] at h
    by_cases hcond : n ≤ acc.length
    · rw [if_pos hcond] at h
      injection h with h
      subst h
      exact ⟨Nat.le_antisymm hle hcond, hnd, hp⟩
    · rw [if_neg hcond] at h
      by_cases hadd : (parses (mutate c) && !(acc.contains (mutate c))) = true
      · rw [if_pos hadd] at h
        simp only [Bool.and_eq_true] at hadd
        have hnotmem : mutate c ∉ acc := by
          have := hadd.2
          simp at this
          exact this
        refine ih (acc ++ [mutate c]) l ?_ ?_ ?_ h
        · exact hnd.append (List.nodup_singleton _)
            (by simpa [List.disjoint_singleton] using hnotmem)
        · intro s hs
          rcases List.mem_append.mp hs with hs | hs
          · exact hp s hs
          · rw [List.mem_singleton.mp hs]
            exact hadd.1
        · have : acc.length < n := Nat.lt_of_not_le hcond
          simp only [List.length_append, List.length_singleton]
          omega
      · rw [if_neg hadd] at h
        exact ih acc l hnd hp hle h

/-- C8: whenever `generate_valid_smiles` returns (for any parse oracle and
any stream of random choices), it returns exactly `n` pairwise-distinct
structure strings, each accepted by the structure-parsing oracle — an
unparseable candidate is never materialized. -/
theorem C8_generator_unique_parseable (parses : String → Bool) (n : Nat)
    (choices : List (Nat × Nat)) (l : List String)
    (h : generate_valid_smiles parses n choices = some l) :
    l.length = n ∧ l.Nodup ∧ ∀ s ∈ l, parses s = true :=
  genLoop_ok_invariant parses n choices [] l (by simp) (by simp) (by simp) h

/-- Witness for C8: with an all-accepting oracle and the choice stream
picking the first two seeds unmutated, generation returns
`["CCO", "CCC"]`. -/
theorem C8_generator_unique_parseable_witness :
    (["CCO", "CCC"] : List String).length = 2 ∧
    (["CCO", "CCC"] : List String).Nodup ∧
    ∀ s ∈ (["CCO", "CCC"] : List String), (fun _ => true) s = true :=
  C8_generator_unique_parseable (fun _ => true) 2 [(0, 0), (1, 0)]
    ["CCO", "CCC"] rfl

/-- Every string `generate_valid_smiles` can ever build: some seed from
`base` extended by some fragment from `suffixes`. -/
def allMutations : List String :=
  base.flatMap (fun parent => suffixes.map (fun suf => parent ++ suf))

/-- Every random draw produces a string in `allMutations`. -/
lemma mutate_mem_allMutations (c : Nat × Nat) :
    mutate c ∈ allMutations := by
  have hb : c.1 % base.length < base.length :=
    Nat.mod_lt _ (by decide)
  have hs : c.2 % suffixes.length < suffixes.length :=
    Nat.mod_lt _ (by decide)
  refine List.mem_flatMap.mpr ⟨base.getD (c.1 % base.length) "", ?_, ?_⟩
  · rw [List.getD_eq_getElem _ _ hb]
    exact List.getElem_mem hb
  · refine List.mem_map.mpr ⟨suffixes.getD (c.2 % suffixes.length) "", ?_, rfl⟩
    rw [List.getD_eq_getElem _ _ hs]
    exact List.getElem_mem hs

/-- When `n` exceeds the number of reachable mutated strings, the sampling
loop can never exit: for every finite attempt budget it is still running
(no generation-failure condition exists in the code). -/
lemma genLoop_none_of_unreachable (parses : String → Bool) (n : Nat)
    (hn : allMutations.length < n) :
    ∀ (choices : List (Nat × Nat)) (acc : List String),
      acc.Nodup → acc ⊆ allMutations →
      genLoop parses n choices acc = none := by
  intro choices
  induction choices with
  | nil =>
    intro acc hnd hsub
    have hlen : acc.length ≤ allMutations.length :=
      (hnd.subperm hsub).length_le
    simp only [genLoop]
    rw [if_neg (by omega)]
  | cons c rest ih =>
    intro acc hnd hsub
    have hlen : acc.length ≤ allMutations.length :=
      (hnd.subperm hsub).length_le
    simp only [genLoop]
    rw [if_neg (by omega)]
    by_cases hadd : (parses (mutate c) && !(acc.contains (mutate c))) = true
    · rw [if_pos hadd]
      simp only [Bool.and_eq_true] at hadd
      have hnotmem : mutate c ∉ acc := by
        have := hadd.2
        simp at this
        exact this
      refine ih (acc ++ [mutate c]) ?_ ?_
      · exact hnd.append (List.nodup_singleton _)
          (by simpa [List.disjoint_singleton] using hnotmem)
      · intro a ha
        rcases List.mem_append.mp ha with ha | ha
        · exact hsub ha
        · rw [List.mem_singleton.mp ha]
          exact mutate_mem_allMutations c
    · rw [if_neg hadd]
      exact ih acc hnd hsub

/-- Divergence of the sampling loop for count `n`: under every parse
oracle and every finite stream of random draws, the `while` loop of
`generate_valid_smiles(n)` is still running when the stream runs out. -/
def genDiverges (n : Nat) : Prop :=
  ∀ (parses : String → Bool) (choices : List (Nat × Nat)),
    generate_valid_smiles parses n choices = none

/-- Counterexample to C5 as stated: for the requested count 100 (more than
the 66 reachable mutated strings) candidate generation neither returns nor
surfaces a generation-failure condition — the unbounded retry loop simply
never terminates, for any parse oracle and any random stream. -/
theorem C5_generation_counterexample : genDiverges 100 :=
  fun parses choices =>
    genLoop_none_of_unreachable parses 100 (by decide) choices []
      (by simp) (by simp)

/-- One loop iteration that accepts a fresh parseable mutation. -/
lemma genLoop_step_add (parses : String → Bool) (n : Nat) (c : Nat × Nat)
    (rest : List (Nat × Nat)) (acc : List String) (hlt : acc.length < n)
    (hp : parses (mutate c) = true) (hmem : acc.contains (mutate c) = false) :
    genLoop parses n (c :: rest) acc =
      genLoop parses n rest (acc ++ [mutate c]) := by
  conv_lhs => rw [genLoop]
  rw [if_neg (by omega)]
  dsimp only
  rw [hp, hmem]
  simp

/-- Loop exit once the accumulator has reached the requested size. -/
lemma genLoop_done (parses : String → Bool) (n : Nat)
    (choices : List (Nat × Nat)) (acc : List String) (h : n ≤ acc.length) :
    genLoop parses n choices acc = some acc := by
  cases choices with
  | nil =>
    simp only [genLoop]
    rw [if_pos h]
  | cons c rest =>
    simp only [genLoop]
    rw [if_pos h]

/-- C5 (amended): `generate_valid_smiles` imposes no attempt budget and
surfaces no generation-failure condition.  When the requested unique count
is reachable it can terminate with exactly that many candidates — here the
configured `CANDIDATES_PER_ROUND = 10` under any parse oracle accepting the
seed vocabulary — while for counts beyond the reachable mutation space the
loop never terminates (see the counterexample). -/
theorem C5_generation_termination (parses : String → Bool)
    (hbase : ∀ s ∈ base, parses s = true) :
    ∃ (choices : List (Nat × Nat)) (l : List String),
      generate_valid_smiles parses CANDIDATES_PER_ROUND choices = some l ∧
      l.length = CANDIDATES_PER_ROUND := by
  refine ⟨[(0, 0), (1, 0), (2, 0), (3, 0), (4, 0), (5, 0), (6, 0), (7, 0),
    (8, 0), (9, 0)],
    ["CCO", "CCC", "CN", "CCN", "CNC", "COC", "CCl", "CCBr", "c1ccccc1",
     "c1ccncc1"], ?_, by decide⟩
  show genLoop parses CANDIDATES_PER_ROUND _ [] = _
  rw [genLoop_step_add parses CANDIDATES_PER_ROUND (0, 0) _ _ (by decide)
      (hbase _ (by decide)) (by decide),
    genLoop_step_add parses CANDIDATES_PER_ROUND (1, 0) _ _ (by decide)
      (hbase _ (by decide)) (by decide),
    genLoop_step_add parses CANDIDATES_PER_ROUND (2, 0) _ _ (by decide)
      (hbase _ (by decide)) (by decide),
    genLoop_step_add parses CANDIDATES_PER_ROUND (3, 0) _ _ (by decide)
      (hbase _ (by decide)) (by decide),
    genLoop_step_add parses CANDIDATES_PER_ROUND (4, 0) _ _ (by decide)
      (hbase _ (by decide)) (by decide),
    genLoop_step_add parses CANDIDATES_PER_ROUND (5, 0) _ _ (by decide)
      (hbase _ (by decide)) (by decide),
    genLoop_step_add parses CANDIDATES_PER_ROUND (6, 0) _ _ (by decide)
      (hbase _ (by decide)) (by decide),
    genLoop_step_add parses CANDIDATES_PER_ROUND (7, 0) _ _ (by decide)
      (hbase _ (by decide)) (by decide),
    genLoop_step_add parses CANDIDATES_PER_ROUND (8, 0) _ _ (by decide)
      (hbase _ (by decide)) (by decide),
    genLoop_step_add parses CANDIDATES_PER_ROUND (9, 0) _ _ (by decide)
      (hbase _ (by decide)) (by decide),
    genLoop_done parses CANDIDATES_PER_ROUND _ _ (by decide)]
  rfl

/-- Witness for C5 with the all-accepting parse oracle. -/
theorem C5_generation_termination_witness :
    ∃ (choices : List (Nat × Nat)) (l : List String),
      generate_valid_smiles (fun _ => true) CANDIDATES_PER_ROUND choices
        = some l ∧
      l.length = CANDIDATES_PER_ROUND :=
  C5_generation_termination (fun _ => true) (fun _ _ => rfl)
